import Mathlib

/-!
Verification of the Python-Music-Sorters repository.

The repository contains three revisions of an iTunes-XML playlist sorter
(PlaylistSorter.py, PyListSorter2.py, PyListSorter3.py) and a tag writer
(analyze_audio.py).  This file gives a shallow embedding of the pure parts
of that code: the ranking step, the value-resolution chain, the raw-value
conversion, the XML re-indentation used on save, and the playlist
reorder/rename rewrite.  Python floats are modelled by rationals: every
value the claims touch is either a small decimal or the sentinel
float("inf"), which the code uses purely as a missing-value marker and
which is modelled here by the `none` case of `Option`.  Python strings
are modelled by `String` (or `List Char` where whitespace reasoning is
needed).  CPython `sorted` is a stable sort and is modelled by
`List.mergeSort`; `sorted(..., reverse=True)` orders by the flipped key
comparison while keeping equal-key elements in input order, exactly as
CPython does.  Theorems at the end settle each claim.
-/

/-- Python value as it flows through the sorters: a float (modelled as a
rational) or a text value.  Mirrors the two runtime types that
`fetch_value` / `_convert_raw` can hand to the sort. -/
inductive PyVal where
  | num (q : ℚ)
  | str (s : String)
deriving DecidableEq

/-- Accumulate a decimal digit list into a natural number. -/
def natOfDigits (l : List Char) : Nat :=
  l.foldl (fun acc c => 10 * acc + (c.toNat - '0'.toNat)) 0

/-- Parse an unsigned decimal literal (digits with an optional fractional
part), as accepted by Python `float`.  Exponent and infinity forms of
the Python literal syntax are not needed by any claim and are omitted. -/
def parseUnsignedDec (l : List Char) : Option ℚ :=
  let intPart := l.takeWhile (fun c => c.isDigit)
  let rest := l.dropWhile (fun c => c.isDigit)
  match rest with
  | [] => if intPart.isEmpty then none else some (natOfDigits intPart)
  | '.' :: frac =>
    if frac.all (fun c => c.isDigit) && !(intPart.isEmpty && frac.isEmpty) then
      some ((natOfDigits intPart : ℚ) + (natOfDigits frac : ℚ) / ((10 : ℚ) ^ frac.length))
    else none
  | _ => none

/-- Python `str.strip()` on a character list: drop leading and trailing
whitespace. -/
def stripChars (l : List Char) : List Char :=
  ((l.dropWhile Char.isWhitespace).reverse.dropWhile Char.isWhitespace).reverse

/-- Model of Python `float(raw)` on a string: surrounding whitespace is
ignored, an optional sign is allowed, and the body must be a decimal
literal; any other text raises `ValueError`, modelled as `none`. -/
def pyFloat? (s : String) : Option ℚ :=
  match stripChars s.data with
  | '-' :: rest => (parseUnsignedDec rest).map (fun q => -q)
  | '+' :: rest => parseUnsignedDec rest
  | t => parseUnsignedDec t

namespace PyListSorter3

/-- Key produced by `sort_key` in `PlaylistSorter._sort_tracks`
(PyListSorter3.py lines 950-956): a missing value (the `float("inf")`
sentinel, modelled as `none`) maps to the second group `(1, 0)`, a
present value `v` to the first group `(0, v)`. -/
def keyOf : Option ℚ → Nat × ℚ
  | none => (1, 0)
  | some v => (0, v)

/-- Python comparison of the `(group, value)` tuples returned by
`sort_key`: lexicographic on the pair. -/
def leKey (a b : Nat × ℚ) : Bool :=
  if a.1 < b.1 then true
  else if a.1 = b.1 then decide (a.2 ≤ b.2)
  else false

/-- Python `sorted(xs, key=k, reverse=r)` as a boolean relation handed to
a stable merge sort: ascending keeps `k a <= k b` pairs in order;
`reverse=True` orders by `k b <= k a`, which (by stability) keeps
equal-key elements in their original relative order, exactly as CPython
does. -/
def pyLe (descending : Bool) (k : α → Nat × ℚ) (a b : α) : Bool :=
  if descending then leKey (k b) (k a) else leKey (k a) (k b)

/-- The ranking step `PlaylistSorter._sort_tracks` (PyListSorter3.py
lines 920-969), with the two impure inputs abstracted: `present tid`
states that `self.xml_handler.tracks` has an entry for `tid` (ids with
no entry are skipped by the `if not track: continue` at line 927), and
`resolve tid` is the value `self.audio_analyzer.get_track_value`
returned for the track (`none` when missing, in which case the code
substitutes `float("inf")` and `sort_key` sends it to group 1). -/
def sort_tracks (present : String → Bool) (resolve : String → Option ℚ)
    (trackIds : List String) (descending : Bool) : List String :=
  ((trackIds.filterMap
      (fun tid => if present tid then some (tid, resolve tid) else none)).mergeSort
    (pyLe descending (fun p => keyOf p.2))).map Prod.fst

/-- The new display name built by `PlaylistSorter._update_playlist`
(PyListSorter3.py lines 977-981): the sort descriptor is appended
unconditionally to whatever name the playlist currently has. -/
def rename_name (playlistName attrLabel : String) (descending : Bool) : String :=
  playlistName ++ " (sorted by " ++ attrLabel ++ ", "
    ++ (if descending then "desc" else "asc") ++ ")"

end PyListSorter3

namespace AudioAnalyzer

/-- The fields of `SortAttribute` (PyListSorter3.py lines 41-49) that the
resolution chain consults. -/
structure SortAttr where
  key : String
  requires_spotify : Bool
  requires_audio : Bool

/-- The strategy chain `AudioAnalyzer.get_track_value` (PyListSorter3.py
lines 358-378).  The three collaborator calls are abstracted as oracles
`emb`, `spot`, `aud` (each returning `none` for a miss);
`inEmbeddedTagMap` is the test `attribute.key in Config.EMBEDDED_TAG_MAP`,
`hasSpotifyClient` the truthiness of `self.spotify`, and `hasFilePath`
the truthiness of `file_path`.  The chain is embedded first, then the
remote service, then content analysis, each consulted only when the
previous ones yielded nothing. -/
def get_track_value (emb spot aud : Unit → Option ℚ)
    (inEmbeddedTagMap hasSpotifyClient hasFilePath : Bool)
    (attr : SortAttr) : Option ℚ :=
  match (if inEmbeddedTagMap then emb () else none) with
  | some v => some v
  | none =>
    match (if attr.requires_spotify && hasSpotifyClient then spot () else none) with
    | some v => some v
    | none => if attr.requires_audio && hasFilePath then aud () else none

/-- The `try/except` wrapper that every strategy body carries
(`_get_embedded_value` lines 399-410, `_get_spotify_value` lines
473-498, `_get_audio_analysis_value` lines 501-534): a raised error is
caught and converted into a miss. -/
def catchMiss (r : Except String (Option ℚ)) : Option ℚ :=
  match r with
  | .ok v => v
  | .error _ => none

/-- `get_track_value` over raw strategies that may raise: each strategy
body is run under its `try/except` before the chain sees its result. -/
def get_track_value_exc (embR spotR audR : Unit → Except String (Option ℚ))
    (inEmbeddedTagMap hasSpotifyClient hasFilePath : Bool)
    (attr : SortAttr) : Option ℚ :=
  get_track_value (fun u => catchMiss (embR u)) (fun u => catchMiss (spotR u))
    (fun u => catchMiss (audR u)) inEmbeddedTagMap hasSpotifyClient hasFilePath attr

/-- The value-collection loop of `_sort_tracks` (PyListSorter3.py lines
920-940) resolves each track independently: one result slot per id. -/
def resolve_all (resolveOne : String → Option ℚ) (ids : List String) :
    List (String × Option ℚ) :=
  ids.map (fun tid => (tid, resolveOne tid))

/-- `AudioAnalyzer._convert_to_float` (PyListSorter3.py lines 536-548) on
a string raw tag value: `float(value)`, with a parse failure caught and
turned into `None`. -/
def convert_to_float (raw : String) : Option ℚ :=
  pyFloat? raw

end AudioAnalyzer

namespace PyListSorter2

/-- `_convert_raw` (PyListSorter2.py lines 223-227): try `float(raw)`;
on failure keep the text itself (`str(raw)`). -/
def convert_raw (raw : String) : PyVal :=
  match pyFloat? raw with
  | some q => PyVal.num q
  | none => PyVal.str raw

/-- The order induced by `_sort_key` (PyListSorter2.py lines 358-360):
numeric values are keyed `(0, v)` and compare numerically; all other
values are keyed `(1, str(v).lower())` and compare by lower-cased text;
the group tag puts every non-numeric value after every numeric one. -/
def leSortKey (a b : PyVal) : Bool :=
  match a, b with
  | PyVal.num x, PyVal.num y => decide (x ≤ y)
  | PyVal.num _, PyVal.str _ => true
  | PyVal.str _, PyVal.num _ => false
  | PyVal.str x, PyVal.str y => decide (x.toLower ≤ y.toLower)

/-- `sorted(scored, key=_sort_key, reverse=rev)` (PyListSorter2.py line
361) as a stable merge sort over the `_sort_key` order. -/
def sort_scored (rev : Bool) (scored : List (String × PyVal)) :
    List (String × PyVal) :=
  scored.mergeSort (fun a b => if rev then leSortKey b.2 a.2 else leSortKey a.2 b.2)

end PyListSorter2

namespace PlaylistSorter1

/-- Comparison Python performs inside `sorted(scored, key=lambda x: x[1])`
(PlaylistSorter.py line 298): the raw values are compared directly, and
comparing a number with a string raises `TypeError`, modelled as the
error case. -/
def pyCompareLt : PyVal → PyVal → Except String Bool
  | PyVal.num a, PyVal.num b => .ok (decide (a < b))
  | PyVal.str a, PyVal.str b => .ok (decide (a < b))
  | _, _ => .error "TypeError"

/-- Insertion of one scored pair using the raw comparison; an error in
any comparison aborts the whole sort, as in CPython. -/
def insertRaw (x : String × PyVal) : List (String × PyVal) →
    Except String (List (String × PyVal))
  | [] => .ok [x]
  | y :: ys => do
    let b ← pyCompareLt x.2 y.2
    if b then
      pure (x :: y :: ys)
    else do
      let r ← insertRaw x ys
      pure (y :: r)

/-- The raw-value sort of PlaylistSorter.py line 298, modelled as an
insertion sort in the error monad: it performs the same pairwise raw
comparisons Python does, and propagates the `TypeError` a mixed
number/text pair raises. -/
def sort_raw : List (String × PyVal) → Except String (List (String × PyVal))
  | [] => .ok []
  | x :: xs => do
    let r ← sort_raw xs
    insertRaw x r

/-- One playlist record: display name and ordered item references. -/
structure PlaylistRec where
  name : String
  items : List String
deriving DecidableEq

/-- `find_playlist_dict` + `set_playlist_items` (PlaylistSorter.py lines
110-142): the first playlist whose name matches gets its item list
replaced by the sorted ids; later playlists are not searched. -/
def reorderFirst (pname : String) (ids : List String) :
    List PlaylistRec → List PlaylistRec
  | [] => []
  | p :: ps =>
    if p.name = pname then { p with items := ids } :: ps
    else p :: reorderFirst pname ids ps

/-- The rename loop of `main` (PlaylistSorter.py lines 307-316): it walks
every playlist and rewrites the name of each one whose `Name` equals the
target (the inner `break` only stops the key scan of a single playlist;
the playlist loop itself has no break).  The identical loop appears in
PyListSorter2.py lines 366-373. -/
def renameAllMatches (pname attrLabel : String) (pls : List PlaylistRec) :
    List PlaylistRec :=
  pls.map (fun p =>
    if p.name = pname then { p with name := pname ++ " : sorted by " ++ attrLabel }
    else p)

/-- The reorder-and-rename tail of `main` (PlaylistSorter.py lines
304-316): replace the first matching playlist items, then run the
rename loop. -/
def reorder_and_rename (pname : String) (ids : List String) (attrLabel : String)
    (pls : List PlaylistRec) : List PlaylistRec :=
  renameAllMatches pname attrLabel (reorderFirst pname ids pls)

end PlaylistSorter1

/-! XML model.  An `xml.etree.ElementTree` element carries a tag, an
optional text (the characters before its first child), an optional tail
(the characters after its closing tag) and an ordered child list.
Attributes never occur on the nodes the claims touch and are omitted. -/

mutual
inductive Element where
  | node (tag : List Char) (text : Option (List Char)) (tail : Option (List Char))
      (children : ElementList)
inductive ElementList where
  | nil
  | cons (e : Element) (es : ElementList)
end

namespace iTunesXMLHandler

/-- Python truthiness-and-strip test `not x or not x.strip()` used by the
indenting routine: `None`, the empty string and all-whitespace strings
count as blank. -/
def blankOpt : Option (List Char) → Bool
  | none => true
  | some s => s.all Char.isWhitespace

/-- The string `i = "\n" + level * "  "` of the indenting routine. -/
def indentStr (level : Nat) : List Char :=
  '\n' :: List.replicate (2 * level) ' '

mutual
/-- `iTunesXMLHandler._indent_xml` (PyListSorter3.py lines 337-349),
identical to `indent` (PyListSorter2.py lines 95-106): a node with
children has blank text replaced by `i + "  "` and blank tail replaced
by `i`, and its children re-indented one level deeper; a childless node
below the root has blank tail replaced by `i`.  Non-blank text and tail
are left alone. -/
def indentE (level : Nat) : Element → Element
  | Element.node tag text tail ElementList.nil =>
    Element.node tag text
      (if (level != 0) && blankOpt tail then some (indentStr level) else tail)
      ElementList.nil
  | Element.node tag text tail (ElementList.cons c cs) =>
    Element.node tag
      (if blankOpt text then some (indentStr level ++ [' ', ' ']) else text)
      (if blankOpt tail then some (indentStr level) else tail)
      (indentL (level + 1) (ElementList.cons c cs))
def indentL (level : Nat) : ElementList → ElementList
  | ElementList.nil => ElementList.nil
  | ElementList.cons e es => ElementList.cons (indentE level e) (indentL level es)
end

mutual
/-- `ElementTree.write` on one element: `<tag />` for a childless node
with no text, otherwise the open tag, text, serialized children, close
tag; the tail follows in both cases. -/
def serializeE : Element → List Char
  | Element.node tag none tail ElementList.nil =>
    '<' :: (tag ++ ' ' :: '/' :: '>' :: tailChars tail)
  | Element.node tag text tail children =>
    '<' :: (tag ++ '>' :: ((text.getD []) ++ serializeL children
      ++ '<' :: '/' :: (tag ++ '>' :: tailChars tail)))
def serializeL : ElementList → List Char
  | ElementList.nil => []
  | ElementList.cons e es => serializeE e ++ serializeL es
def tailChars : Option (List Char) → List Char
  | none => []
  | some s => s
end

/-- A parsed document in the compact serialization (no whitespace between
tags), used as the round-trip counterexample: its target playlist is
untouched, yet saving re-indents it. -/
def compactDoc : Element :=
  Element.node "dict".data none none
    (ElementList.cons (Element.node "key".data (some "A".data) none ElementList.nil)
      ElementList.nil)

/-- The children of an element list as a plain list. -/
def elemsOf : ElementList → List Element
  | ElementList.nil => []
  | ElementList.cons e es => e :: elemsOf es

/-- The item entry rebuilt by `update_playlist_order` (PyListSorter3.py
lines 311-314, identically `set_playlist_items` in the other two
scripts): a fresh `<dict>` holding exactly a `<key>Track ID</key>`
followed by an `<integer>` with the track id. -/
def item_dict (tid : List Char) : Element :=
  Element.node "dict".data none none
    (ElementList.cons (Element.node "key".data (some "Track ID".data) none ElementList.nil)
      (ElementList.cons (Element.node "integer".data (some tid) none ElementList.nil)
        ElementList.nil))

/-- The re-add loop: one fresh item entry per sorted track id, in order. -/
def build_items : List (List Char) → ElementList
  | [] => ElementList.nil
  | tid :: rest => ElementList.cons (item_dict tid) (build_items rest)

/-- `update_playlist_order` on the `Playlist Items` array (PyListSorter3.py
lines 294-316): every existing child is removed, then the fresh entries
are appended, so the result does not depend on the old children at all. -/
def update_playlist_items (_oldChildren : ElementList) (sortedIds : List (List Char)) :
    ElementList :=
  build_items sortedIds

end iTunesXMLHandler

/-! Supporting lemmas. -/

namespace PyListSorter3

/-- The tuple comparison behind `sort_key` spelled out. -/
theorem leKey_iff (a b : Nat × ℚ) :
    leKey a b = true ↔ a.1 < b.1 ∨ (a.1 = b.1 ∧ a.2 ≤ b.2) := by
  unfold leKey
  split_ifs with h1 h2
  · simp [h1]
  · simp [h1, h2]
  · simp [h1, h2]

/-- The tuple comparison is total, so Python never fails to order two
keys produced by `sort_key`. -/
theorem leKey_total (a b : Nat × ℚ) : leKey a b || leKey b a := by
  rcases Nat.lt_trichotomy a.1 b.1 with h | h | h
  · simp [leKey_iff, h]
  · rcases le_total a.2 b.2 with h2 | h2 <;> simp [leKey_iff, h, h2]
  · simp [leKey_iff, h]

/-- The tuple comparison is transitive. -/
theorem leKey_trans (a b c : Nat × ℚ) :
    leKey a b → leKey b c → leKey a c := by
  simp only [leKey_iff]
  rintro (h1 | ⟨h1, h1'⟩) (h2 | ⟨h2, h2'⟩)
  · exact Or.inl (h1.trans h2)
  · exact Or.inl (h2 ▸ h1)
  · exact Or.inl (h1 ▸ h2)
  · exact Or.inr ⟨h1.trans h2, h1'.trans h2'⟩

theorem pyLe_total (descending : Bool) (k : α → Nat × ℚ) (a b : α) :
    pyLe descending k a b || pyLe descending k b a := by
  unfold pyLe
  cases descending <;> simp only [if_true, if_false, Bool.false_eq_true]
  · exact leKey_total _ _
  · exact leKey_total _ _

theorem pyLe_trans (descending : Bool) (k : α → Nat × ℚ) (a b c : α) :
    pyLe descending k a b → pyLe descending k b c → pyLe descending k a c := by
  unfold pyLe
  cases descending <;> simp only [if_true, if_false, Bool.false_eq_true]
  · exact leKey_trans _ _ _
  · exact fun h1 h2 => leKey_trans _ _ _ h2 h1

/-- Mapping `Prod.fst` over the scored list recovers exactly the ids that
survive the `if not track: continue` guard. -/
theorem map_fst_scored (present : String → Bool) (resolve : String → Option ℚ)
    (ids : List String) :
    (ids.filterMap
        (fun tid => if present tid then some (tid, resolve tid) else none)).map Prod.fst
      = ids.filter (fun t => present t) := by
  induction ids with
  | nil => rfl
  | cons a l ih =>
    by_cases h : present a <;> simp [h, ih]

/-- Every scored pair is a surviving id together with its resolved value. -/
theorem mem_scored (present : String → Bool) (resolve : String → Option ℚ)
    (ids : List String) (x : String × Option ℚ)
    (hx : x ∈ ids.filterMap
      (fun tid => if present tid then some (tid, resolve tid) else none)) :
    present x.1 = true ∧ x.2 = resolve x.1 := by
  rw [List.mem_filterMap] at hx
  obtain ⟨a, _, ha⟩ := hx
  by_cases h : present a
  · simp only [h, if_true, Option.some.injEq] at ha
    subst ha
    exact ⟨h, rfl⟩
  · simp [h] at ha

/-- Re-scoring the output of the sort reproduces the sorted pair list. -/
theorem filterMap_map_fst_self (present : String → Bool)
    (resolve : String → Option ℚ) (l : List (String × Option ℚ))
    (h : ∀ x ∈ l, present x.1 = true ∧ x.2 = resolve x.1) :
    (l.map Prod.fst).filterMap
        (fun tid => if present tid then some (tid, resolve tid) else none) = l := by
  induction l with
  | nil => rfl
  | cons x l ih =>
    obtain ⟨h1, h2⟩ := h x (List.mem_cons_self x l)
    simp only [List.map_cons, List.filterMap_cons, h1, if_true]
    rw [← h2, ih (fun y hy => h y (List.mem_cons_of_mem x hy))]

/-- Sorting an already-sorted playlist again with the same attribute and
direction reproduces the same order: the ranking step is a stable sort
under a total transitive comparison, so a second run over the output of
a first run returns it unchanged. -/
theorem sort_tracks_idem (present : String → Bool) (resolve : String → Option ℚ)
    (ids : List String) (descending : Bool) :
    sort_tracks present resolve (sort_tracks present resolve ids descending) descending
      = sort_tracks present resolve ids descending := by
  unfold sort_tracks
  have hmem : ∀ x ∈ ((ids.filterMap
        (fun tid => if present tid then some (tid, resolve tid) else none)).mergeSort
      (pyLe descending (fun p => keyOf p.2))),
      present x.1 = true ∧ x.2 = resolve x.1 := by
    intro x hx
    exact mem_scored present resolve ids x (List.mem_mergeSort.mp hx)
  rw [filterMap_map_fst_self present resolve _ hmem,
    List.mergeSort_of_sorted
      (List.sorted_mergeSort
        (pyLe_trans descending (fun p : String × Option ℚ => keyOf p.2))
        (pyLe_total descending (fun p : String × Option ℚ => keyOf p.2)) _)]

end PyListSorter3

namespace PyListSorter2

/-- The `_sort_key` order is total: any two runtime values can be
compared, so the guarded sort never raises. -/
theorem leSortKey_total (a b : PyVal) : leSortKey a b || leSortKey b a := by
  cases a <;> cases b <;> simp [leSortKey] <;> apply le_total

/-- The `_sort_key` order is transitive. -/
theorem leSortKey_trans (a b c : PyVal) :
    leSortKey a b → leSortKey b c → leSortKey a c := by
  cases a <;> cases b <;> cases c <;> simp [leSortKey] <;>
    exact fun h1 h2 => le_trans h1 h2

end PyListSorter2

namespace iTunesXMLHandler

theorem all_whitespace_replicate (n : Nat) :
    (List.replicate n ' ').all Char.isWhitespace = true := by
  induction n with
  | zero => rfl
  | succ n ih => simp [List.replicate, ih]

/-- The strings the indenting routine writes are themselves blank. -/
theorem blankOpt_indentStr (level : Nat) :
    blankOpt (some (indentStr level)) = true := by
  simp [blankOpt, indentStr, all_whitespace_replicate]

theorem blankOpt_indentStr_spaces (level : Nat) :
    blankOpt (some (indentStr level ++ [' ', ' '])) = true := by
  simp [blankOpt, indentStr, List.all_append, all_whitespace_replicate]

mutual
/-- Indenting is idempotent on a single element: a second pass finds only
blank text/tail holding exactly the strings the first pass wrote and
rewrites them to the same strings. -/
theorem indentE_idem (level : Nat) (e : Element) :
    indentE level (indentE level e) = indentE level e := by
  match e with
  | Element.node tag text tail ElementList.nil =>
    by_cases h : ((level != 0) && blankOpt tail) = true
    · obtain ⟨h1, h2⟩ := Bool.and_eq_true _ _ |>.mp h
      simp [indentE, h1, h2, blankOpt_indentStr]
    · simp [indentE, h]
  | Element.node tag text tail (ElementList.cons c cs) =>
    have hk : indentL (level + 1) (ElementList.cons c cs)
        = ElementList.cons (indentE (level + 1) c) (indentL (level + 1) cs) := rfl
    have hc : indentL (level + 1)
          (ElementList.cons (indentE (level + 1) c) (indentL (level + 1) cs))
        = ElementList.cons (indentE (level + 1) c) (indentL (level + 1) cs) :=
      indentL_idem (level + 1) (ElementList.cons c cs)
    by_cases ht : blankOpt text = true <;>
      by_cases hl : blankOpt tail = true <;>
        simp [indentE, hk, hc, ht, hl, blankOpt_indentStr, blankOpt_indentStr_spaces]
theorem indentL_idem (level : Nat) (l : ElementList) :
    indentL level (indentL level l) = indentL level l := by
  match l with
  | ElementList.nil => rfl
  | ElementList.cons e es =>
    simp [indentL, indentE_idem level e, indentL_idem level es]
end

/-- Every entry of the rebuilt item array is the canonical two-child
`Track ID` dict of one of the sorted ids. -/
theorem mem_build_items (ids : List (List Char)) (e : Element)
    (he : e ∈ elemsOf (build_items ids)) : ∃ tid ∈ ids, e = item_dict tid := by
  induction ids with
  | nil => simp [build_items, elemsOf] at he
  | cons tid rest ih =>
    rcases (List.mem_cons).mp he with h | h
    · exact ⟨tid, List.mem_cons_self tid rest, h⟩
    · obtain ⟨t, ht, he'⟩ := ih h
      exact ⟨t, List.mem_cons_of_mem tid ht, he'⟩

end iTunesXMLHandler

namespace PlaylistSorter1

/-- The rename loop leaves a playlist whose name differs alone. -/
theorem renameAllMatches_no_match (pname attrLabel : String)
    (l : List PlaylistRec) (h : ∀ q ∈ l, q.name ≠ pname) :
    renameAllMatches pname attrLabel l = l := by
  induction l with
  | nil => rfl
  | cons p ps ih =>
    simp only [renameAllMatches, List.map_cons,
      if_neg (h p (List.mem_cons_self p ps))]
    rw [show List.map _ ps = renameAllMatches pname attrLabel ps from rfl,
      ih (fun q hq => h q (List.mem_cons_of_mem p hq))]

/-- `find_playlist_dict` + `set_playlist_items` rewrite exactly the first
matching playlist. -/
theorem reorderFirst_first_match (pname : String) (ids : List String)
    (l1 : List PlaylistRec) (p : PlaylistRec) (l2 : List PlaylistRec)
    (h1 : ∀ q ∈ l1, q.name ≠ pname) (hp : p.name = pname) :
    reorderFirst pname ids (l1 ++ p :: l2) = l1 ++ { p with items := ids } :: l2 := by
  induction l1 with
  | nil => simp [reorderFirst, hp]
  | cons q l1 ih =>
    simp only [List.cons_append, reorderFirst,
      if_neg (h1 q (List.mem_cons_self q l1))]
    exact congrArg (q :: ·) (ih (fun r hr => h1 r (List.mem_cons_of_mem q hr)))

end PlaylistSorter1

/-! Claim theorems. -/

unseal List.mergeSort List.merge in
/-- Claim C1, settled as a code bug.  With one present track `A` (value 1)
and one absent track `B`, the ranking step places `B` last under the
ascending direction, but first under the descending direction: the call
`sorted(scored_tracks, key=sort_key, reverse=descending)` reverses the
group tag of `sort_key` together with the value, so the missing group
`(1, 0)` leads the output when `reverse=True`.  This contradicts the
comment at PyListSorter3.py line 952 ("Sort missing values (inf) to the
end regardless of direction") and the printed promise "will be sorted
last" at line 947, as well as the direction-invariant trailing placement
the spec requires. -/
theorem c1_descending_puts_absent_first :
    PyListSorter3.sort_tracks (fun _ => true)
        (fun t => if t = "A" then some 1 else none) ["A", "B"] false = ["A", "B"]
    ∧ PyListSorter3.sort_tracks (fun _ => true)
        (fun t => if t = "A" then some 1 else none) ["A", "B"] true = ["B", "A"] := by
  exact ⟨by decide, by decide⟩

unseal List.mergeSort List.merge in
/-- Claim C2, counterexample.  A playlist referencing ids `1` and `2`
where only `1` has an entry in the track mapping is ranked to the
single-element list `["1"]`: the dangling id `2` is dropped by the
`if not track: continue` guard, so the output is not a permutation of
the original id sequence. -/
theorem c2_dangling_id_dropped :
    PyListSorter3.sort_tracks (fun t => decide (t = "1")) (fun _ => some 1)
        ["1", "2"] false = ["1"]
    ∧ ¬ List.Perm ["1"] ["1", "2"] := by
  refine ⟨by decide, fun h => ?_⟩
  simpa using h.length_eq

/-- Claim C2, amended.  The ranked output is a permutation of the
sub-sequence of playlist ids that have an entry in the track mapping:
none of those is lost or duplicated; ids with no entry are dropped,
not preserved. -/
theorem c2_sort_tracks_perm (present : String → Bool) (resolve : String → Option ℚ)
    (ids : List String) (descending : Bool) :
    (PyListSorter3.sort_tracks present resolve ids descending).Perm
      (ids.filter (fun t => present t)) := by
  have h := (List.mergeSort_perm
      (ids.filterMap (fun tid => if present tid then some (tid, resolve tid) else none))
      (PyListSorter3.pyLe descending (fun p => PyListSorter3.keyOf p.2))).map Prod.fst
  rw [PyListSorter3.map_fst_scored] at h
  exact h

/-- Claim C3, counterexample.  A parsed document whose target playlist is
untouched does not serialize back to its original bytes: `save` first
runs the indenting routine over the whole tree, which rewrites the
whitespace of a compactly formatted document, so the output differs from
the input bytes. -/
theorem c3_compact_doc_reindented :
    iTunesXMLHandler.serializeE (iTunesXMLHandler.indentE 0 iTunesXMLHandler.compactDoc)
      ≠ iTunesXMLHandler.serializeE iTunesXMLHandler.compactDoc := by
  decide

/-- Claim C3, amended.  `save` re-indents every node before writing, so
byte-identity holds exactly for documents already carrying the two-space
indentation normal form: the indenting routine is idempotent, hence a
document produced by a previous save serializes back byte-identically,
while any other whitespace convention is rewritten even on nodes far
from the target playlist. -/
theorem c3_save_roundtrip_on_indented (d : Element) :
    iTunesXMLHandler.serializeE
        (iTunesXMLHandler.indentE 0 (iTunesXMLHandler.indentE 0 d))
      = iTunesXMLHandler.serializeE (iTunesXMLHandler.indentE 0 d) := by
  rw [iTunesXMLHandler.indentE_idem]

/-- Claim C4, counterexample.  With two playlists both named `Mix`, the
reorder-and-rename pass of PlaylistSorter.py reorders only the first
one, but renames both: the second playlist keeps its items yet its
display name is rewritten, so it is not left unchanged. -/
theorem c4_second_match_renamed :
    PlaylistSorter1.reorder_and_rename "Mix" ["2", "1"] "bpm"
        [⟨"Mix", ["1", "2"]⟩, ⟨"Mix", ["3"]⟩]
      = [⟨"Mix : sorted by bpm", ["2", "1"]⟩, ⟨"Mix : sorted by bpm", ["3"]⟩]
    ∧ ("Mix : sorted by bpm" : String) ≠ "Mix" := by
  exact ⟨rfl, by decide⟩

/-- Claim C4, amended.  Only the first matching playlist has its item
list rewritten; every playlist before it is untouched entirely, and
every later playlist keeps its item order — but each later playlist
whose display name equals the target also has the sort descriptor
appended to its name, while non-matching playlists keep their names. -/
theorem c4_first_items_only_all_names (pname attrLabel : String) (ids : List String)
    (l1 : List PlaylistSorter1.PlaylistRec) (p : PlaylistSorter1.PlaylistRec)
    (l2 : List PlaylistSorter1.PlaylistRec)
    (h1 : ∀ q ∈ l1, q.name ≠ pname) (hp : p.name = pname) :
    PlaylistSorter1.reorder_and_rename pname ids attrLabel (l1 ++ p :: l2)
      = l1 ++ ⟨pname ++ " : sorted by " ++ attrLabel, ids⟩
          :: l2.map (fun q =>
              if q.name = pname
              then ⟨pname ++ " : sorted by " ++ attrLabel, q.items⟩
              else q) := by
  unfold PlaylistSorter1.reorder_and_rename
  rw [PlaylistSorter1.reorderFirst_first_match pname ids l1 p l2 h1 hp]
  unfold PlaylistSorter1.renameAllMatches
  rw [List.map_append, List.map_cons]
  rw [show List.map _ l1 = PlaylistSorter1.renameAllMatches pname attrLabel l1 from rfl,
    PlaylistSorter1.renameAllMatches_no_match pname attrLabel l1 h1]
  simp [hp]

/-- Claim C4, witness for the amended theorem. -/
theorem c4_first_items_only_all_names_witness :
    PlaylistSorter1.reorder_and_rename "Mix" ["1"] "bpm"
        ([⟨"Other", ["9"]⟩] ++ ⟨"Mix", ["1", "2"]⟩ :: [⟨"Mix", ["3"]⟩, ⟨"Chill", ["4"]⟩])
      = [⟨"Other", ["9"]⟩] ++ ⟨"Mix : sorted by bpm", ["1"]⟩
          :: [⟨"Mix", ["3"]⟩, ⟨"Chill", ["4"]⟩].map (fun q =>
              if q.name = "Mix"
              then ⟨"Mix : sorted by bpm", q.items⟩
              else q) :=
  c4_first_items_only_all_names "Mix" "bpm" ["1"] [⟨"Other", ["9"]⟩]
    ⟨"Mix", ["1", "2"]⟩ [⟨"Mix", ["3"]⟩, ⟨"Chill", ["4"]⟩] (by decide) rfl

/-- Claim C5, counterexample.  `_update_playlist` builds the new display
name by appending the sort descriptor to the current name without any
check: applied to a name that already carries the descriptor from a
prior run, the suffix is appended a second time. -/
theorem c5_suffix_doubled :
    PyListSorter3.rename_name
        (PyListSorter3.rename_name "Mix" "Track BPM" false) "Track BPM" false
      = "Mix (sorted by Track BPM, asc) (sorted by Track BPM, asc)"
    ∧ ("Mix (sorted by Track BPM, asc) (sorted by Track BPM, asc)" : String)
      ≠ "Mix (sorted by Track BPM, asc)" := by
  exact ⟨rfl, by decide⟩

/-- Claim C5, amended.  The item order is deterministic and stable across
repeated runs — ranking the output of a run again with the same
attribute and direction reproduces it unchanged — but the display-name
suffix is appended unconditionally on every run, including when the name
already carries it. -/
theorem c5_rerun_order_stable_suffix_appended (present : String → Bool)
    (resolve : String → Option ℚ) (ids : List String) (descending : Bool)
    (pname attrLabel : String) :
    PyListSorter3.sort_tracks present resolve
        (PyListSorter3.sort_tracks present resolve ids descending) descending
      = PyListSorter3.sort_tracks present resolve ids descending
    ∧ PyListSorter3.rename_name (PyListSorter3.rename_name pname attrLabel descending)
          attrLabel descending
      = PyListSorter3.rename_name pname attrLabel descending
          ++ " (sorted by " ++ attrLabel ++ ", "
          ++ (if descending then "desc" else "asc") ++ ")" :=
  ⟨PyListSorter3.sort_tracks_idem present resolve ids descending, rfl⟩

/-- Claim C6, confirmed.  When the attribute is listed in the embedded
tag map and the embedded-tag strategy yields a value, that value is the
result of the chain, and the result does not depend on the remote or
content-analysis oracles at all: they are not consulted. -/
theorem c6_embedded_short_circuits (emb spot aud : Unit → Option ℚ)
    (hasSpotifyClient hasFilePath : Bool) (attr : AudioAnalyzer.SortAttr) (v : ℚ)
    (h : emb () = some v) :
    AudioAnalyzer.get_track_value emb spot aud true hasSpotifyClient hasFilePath attr
      = some v
    ∧ ∀ spot' aud' : Unit → Option ℚ,
        AudioAnalyzer.get_track_value emb spot' aud' true hasSpotifyClient hasFilePath attr
          = AudioAnalyzer.get_track_value emb spot aud true hasSpotifyClient
              hasFilePath attr := by
  constructor
  · simp [AudioAnalyzer.get_track_value, h]
  · intro spot' aud'
    simp [AudioAnalyzer.get_track_value, h]

/-- Claim C6, witness. -/
theorem c6_embedded_short_circuits_witness :
    AudioAnalyzer.get_track_value (fun _ => some 7) (fun _ => some 1) (fun _ => some 2)
        true true true ⟨"beats_per_minute", false, true⟩ = some 7 :=
  (c6_embedded_short_circuits (fun _ => some 7) (fun _ => some 1) (fun _ => some 2)
    true true ⟨"beats_per_minute", false, true⟩ 7 rfl).1

/-- Claim C7, confirmed.  A strategy that raises is caught and treated as
a miss: the chain behaves exactly as if the strategy had returned
nothing and proceeds; if every strategy raises, the result is the absent
value; and the per-track resolution loop gives each track its own result
slot, so one track never affects the others and no failure aborts the
run. -/
theorem c7_strategy_errors_recovered (embR spotR audR : Unit → Except String (Option ℚ))
    (inEmbeddedTagMap hasSpotifyClient hasFilePath : Bool)
    (attr : AudioAnalyzer.SortAttr) (e1 e2 e3 : String) :
    (embR () = .error e1 →
      AudioAnalyzer.get_track_value_exc embR spotR audR inEmbeddedTagMap
          hasSpotifyClient hasFilePath attr
        = AudioAnalyzer.get_track_value_exc (fun _ => .ok none) spotR audR
            inEmbeddedTagMap hasSpotifyClient hasFilePath attr)
    ∧ (embR () = .error e1 → spotR () = .error e2 → audR () = .error e3 →
      AudioAnalyzer.get_track_value_exc embR spotR audR inEmbeddedTagMap
          hasSpotifyClient hasFilePath attr = none)
    ∧ ∀ (resolveOne : String → Option ℚ) (l1 l2 : List String) (t : String),
        AudioAnalyzer.resolve_all resolveOne (l1 ++ t :: l2)
          = AudioAnalyzer.resolve_all resolveOne l1
              ++ (t, resolveOne t) :: AudioAnalyzer.resolve_all resolveOne l2 := by
  refine ⟨fun h1 => ?_, fun h1 h2 h3 => ?_, fun resolveOne l1 l2 t => ?_⟩
  · simp [AudioAnalyzer.get_track_value_exc, AudioAnalyzer.get_track_value,
      AudioAnalyzer.catchMiss, h1]
  · simp [AudioAnalyzer.get_track_value_exc, AudioAnalyzer.get_track_value,
      AudioAnalyzer.catchMiss, h1, h2, h3]
  · simp [AudioAnalyzer.resolve_all]

/-- Claim C7, witness. -/
theorem c7_strategy_errors_recovered_witness :
    AudioAnalyzer.get_track_value_exc (fun _ => .error "tag read failure")
        (fun _ => .ok (some 5)) (fun _ => .ok (some 2)) true true true
        ⟨"popularity", true, false⟩
      = AudioAnalyzer.get_track_value_exc (fun _ => .ok none)
          (fun _ => .ok (some 5)) (fun _ => .ok (some 2)) true true true
          ⟨"popularity", true, false⟩
    ∧ AudioAnalyzer.get_track_value_exc (fun _ => .error "a") (fun _ => .error "b")
        (fun _ => .error "c") true true true ⟨"popularity", true, true⟩ = none :=
  ⟨(c7_strategy_errors_recovered (fun _ => .error "tag read failure")
      (fun _ => .ok (some 5)) (fun _ => .ok (some 2)) true true true
      ⟨"popularity", true, false⟩ "tag read failure" "b" "c").1 rfl,
   (c7_strategy_errors_recovered (fun _ => .error "a") (fun _ => .error "b")
      (fun _ => .error "c") true true true
      ⟨"popularity", true, true⟩ "a" "b" "c").2.1 rfl rfl rfl⟩

/-- Claim C8, counterexample.  The earliest revision sorts the raw values
directly (`sorted(scored, key=lambda x: x[1])`, PlaylistSorter.py line
298): on a present group mixing a textual value with a numeric value the
comparison raises `TypeError`, so the comparison can fail, contrary to
the claim. -/
theorem c8_raw_sort_type_error :
    PlaylistSorter1.sort_raw [("1", PyVal.str "abc"), ("2", PyVal.num 1)]
      = Except.error "TypeError" := by
  rfl

/-- Claim C8, amended.  The revision that implements the policy
(`_sort_key`, PyListSorter2.py lines 358-361) satisfies it: the order is
total (the guarded comparison never fails), every textual value sorts
after every numeric value, numeric values compare numerically and
textual values by lower-cased text, and the ascending sort outputs a
permutation of its input that is pairwise ordered under that policy.
The earliest revision, which sorts raw values without the guard, raises
`TypeError` on mixed types instead. -/
theorem c8_sort_key_policy (scored : List (String × PyVal)) :
    (∀ a b : PyVal, PyListSorter2.leSortKey a b || PyListSorter2.leSortKey b a)
    ∧ (∀ (q : ℚ) (s : String),
        PyListSorter2.leSortKey (PyVal.num q) (PyVal.str s) = true
        ∧ PyListSorter2.leSortKey (PyVal.str s) (PyVal.num q) = false)
    ∧ (PyListSorter2.sort_scored false scored).Pairwise
        (fun a b => PyListSorter2.leSortKey a.2 b.2)
    ∧ (PyListSorter2.sort_scored false scored).Perm scored := by
  refine ⟨PyListSorter2.leSortKey_total, fun q s => ⟨rfl, rfl⟩, ?_, ?_⟩
  · exact List.sorted_mergeSort
      (fun a b c h1 h2 => PyListSorter2.leSortKey_trans a.2 b.2 c.2 h1 h2)
      (fun a b => PyListSorter2.leSortKey_total a.2 b.2) scored
  · exact List.mergeSort_perm scored _

/-- Claim C9, counterexample.  In PyListSorter3 the embedded-tag strategy
funnels every found raw value through `_convert_to_float`, which returns
`None` for text that does not parse as a number: the non-empty raw value
`Am` is discarded as absent instead of being retained as a textual
value. -/
theorem c9_text_discarded_in_v3 :
    AudioAnalyzer.convert_to_float "Am" = none := by
  decide

/-- Claim C9, amended.  In the first two revisions (`fetch_value`,
PlaylistSorter.py lines 160-165, and `_convert_raw`, PyListSorter2.py
lines 223-227) numeric-looking text is coerced to a number and any other
text is retained as a textual value; in PyListSorter3,
`_convert_to_float` coerces numeric-looking text but returns absent for
any other text. -/
theorem c9_conversion_policy (raw : String) (q : ℚ) :
    (pyFloat? raw = some q → PyListSorter2.convert_raw raw = PyVal.num q)
    ∧ (pyFloat? raw = none → PyListSorter2.convert_raw raw = PyVal.str raw)
    ∧ (pyFloat? raw = some q → AudioAnalyzer.convert_to_float raw = some q)
    ∧ (pyFloat? raw = none → AudioAnalyzer.convert_to_float raw = none)
    ∧ pyFloat? "90" = some 90 := by
  refine ⟨fun h => ?_, fun h => ?_, fun h => ?_, fun h => ?_, by decide⟩
  · simp [PyListSorter2.convert_raw, h]
  · simp [PyListSorter2.convert_raw, h]
  · simp [AudioAnalyzer.convert_to_float, h]
  · simp [AudioAnalyzer.convert_to_float, h]

/-- Claim C9, witness for the amended theorem. -/
theorem c9_conversion_policy_witness :
    PyListSorter2.convert_raw "90" = PyVal.num 90
    ∧ PyListSorter2.convert_raw "Am" = PyVal.str "Am" :=
  ⟨(c9_conversion_policy "90" 90).1 (by decide),
   (c9_conversion_policy "Am" 0).2.1 (by decide)⟩

/-- Claim C10, confirmed.  After the rewrite of the `Playlist Items`
array, every entry is a `<dict>` whose children are exactly one
`<key>Track ID</key>` and one `<integer>` holding a sorted track id;
the rebuilt array is independent of the original items, so any other
per-item fields are not preserved. -/
theorem c10_items_rebuilt_canonical (old old' : ElementList)
    (ids : List (List Char)) (e : Element) :
    (e ∈ iTunesXMLHandler.elemsOf (iTunesXMLHandler.update_playlist_items old ids) →
      ∃ tid ∈ ids, e = Element.node "dict".data none none
        (ElementList.cons
          (Element.node "key".data (some "Track ID".data) none ElementList.nil)
          (ElementList.cons (Element.node "integer".data (some tid) none ElementList.nil)
            ElementList.nil)))
    ∧ iTunesXMLHandler.update_playlist_items old ids
      = iTunesXMLHandler.update_playlist_items old' ids :=
  ⟨fun he => iTunesXMLHandler.mem_build_items ids e he, rfl⟩

/-- Claim C10, witness. -/
theorem c10_items_rebuilt_canonical_witness :
    ∃ tid ∈ [("42".data : List Char)],
      iTunesXMLHandler.item_dict "42".data = Element.node "dict".data none none
        (ElementList.cons
          (Element.node "key".data (some "Track ID".data) none ElementList.nil)
          (ElementList.cons (Element.node "integer".data (some tid) none ElementList.nil)
            ElementList.nil)) :=
  (c10_items_rebuilt_canonical ElementList.nil
      (iTunesXMLHandler.build_items ["7".data]) ["42".data]
      (iTunesXMLHandler.item_dict "42".data)).1 (List.mem_cons_self _ _)
